import Mathlib

/-!
Verification of the simulation core of the scrumino falling-block game.

The definitions below are a shallow embedding of the TypeScript source:
the board and piece grids become lists of lists of cells, the piece
operations (`detectCollision`, `moveBlock`, `rotateBlock`,
`findDropCollision`, `stampBlock`, row clearing) become Lean functions,
the fixed-timestep clock (`createGameLoop`) becomes an explicit state
step, and the per-session UI state machine (tick handler plus keydown
handlers) becomes a step function over a `SessionState`.

JavaScript quirks that matter are modelled explicitly:
  - reading past the end of an array yields `undefined` (modelled with
    `Option`; `undefined` is not equal to the empty-cell marker, so the
    source treats it as an occupied cell),
  - writing `arr[i] = v` with `i < 0` records a plain object property and
    leaves the indexed elements of `arr` unchanged,
  - reading an element of `undefined` throws a TypeError (modelled by
    returning `none` from the whole operation),
  - `Array.prototype.reverse` reverses the array in place (the
    counter-clockwise branch of `rotateBlock` therefore mutates the
    piece it was given; the embedding returns the post-call state of the
    input piece alongside the candidate).
Unbounded `for (;;)` / `while` loops are given a fuel parameter; `none`
means the loop did not finish within the given number of iterations.
-/

/-- Board width, `const COLS = 10` in the source. -/
def COLS : Nat := 10

/-- Board height, `const ROWS = 16` in the source. -/
def ROWS : Nat := 16

/-- The seven tetromino kinds. -/
inductive Shape where
  | I | J | L | O | S | T | Z
deriving DecidableEq, Repr

/-- A cell of a grid: the empty marker (spelled `'0'` or the empty string
in the source) or a piece-kind tag. -/
inductive Cell where
  | empty
  | tag (s : Shape)
deriving DecidableEq, Repr

/-- A grid is a list of rows of cells (board grids are `ROWS x COLS`,
piece occupancy grids are 3x3 or 4x4). -/
abbrev Grid := List (List Cell)

/-- JavaScript-style read `g[y][x]` as used in the piece loops: the row
always exists there (`y` ranges over the outer length), and reading past
the end of the row yields `undefined`, modelled as `none`. -/
def jsCell (g : Grid) (y x : Nat) : Option Cell :=
  (g.getD y [])[x]?

/-- Total read of a grid cell with the empty cell as default; coincides
with `jsCell` whenever the coordinates are inside the grid. -/
def gget (g : Grid) (y x : Nat) : Cell :=
  (g.getD y []).getD x Cell.empty

/-- A well-formed board: `ROWS` rows of `COLS` cells, the invariant the
source establishes at `defaultState` and preserves. -/
def boardWF (g : Grid) : Prop :=
  g.length = ROWS ∧ ∀ row ∈ g, row.length = COLS

instance : DecidablePred boardWF := fun g => by
  unfold boardWF; infer_instance

/-- A square occupancy grid (every row as long as the list of rows), the
shape invariant of the static tetromino definitions. -/
def isSquare (g : Grid) : Prop :=
  ∀ row ∈ g, row.length = g.length

instance : DecidablePred isSquare := fun g => by
  unfold isSquare; infer_instance

/-- The active falling piece, the `Block` record of the source.  The
`color` field is dropped (pure UI data); `cooldown` and `lastTime` are
the fall-timing state, in simulated seconds. -/
structure Block where
  x : Int
  y : Int
  grid : Grid
  cooldown : ℚ
  lastTime : ℚ
deriving DecidableEq, Repr

/-- One collision test of `detectCollision` for the piece cell at local
coordinates `(x, y)`: an empty piece cell is skipped; an occupied cell
(including a JavaScript `undefined` read, which compares unequal to the
empty marker) collides when its absolute coordinate is outside
`[0,COLS) x [0,ROWS)` or the board cell there is non-empty. -/
def cellCollides (board : Grid) (b : Block) (y x : Nat) : Bool :=
  if jsCell b.grid y x = some Cell.empty then
    false
  else
    let nextX : Int := (x : Int) + b.x
    let nextY : Int := (y : Int) + b.y
    if nextX < 0 ∨ nextY < 0 ∨ (COLS : Int) ≤ nextX ∨ (ROWS : Int) ≤ nextY then
      true
    else
      decide (jsCell board nextY.toNat nextX.toNat ≠ some Cell.empty)

/-- `detectCollision(grid, block)` from the source: both loops run over
`block.grid.length` (the grid is square in every use). -/
def detectCollision (board : Grid) (b : Block) : Bool :=
  (List.range b.grid.length).any fun y =>
    (List.range b.grid.length).any fun x =>
      cellCollides board b y x

/-- Movement directions of `moveBlock`. -/
inductive Direction where
  | up | down | left | right
deriving DecidableEq, Repr

/-- `moveBlock(grid, block, direction)`: builds a candidate shifted by
one cell and returns the collision verdict together with the candidate;
the input block is not modified. -/
def moveBlock (grid : Grid) (b : Block) (d : Direction) : Bool × Block :=
  let nb :=
    match d with
    | .up => { b with y := b.y - 1 }
    | .down => { b with y := b.y + 1 }
    | .left => { b with x := b.x - 1 }
    | .right => { b with x := b.x + 1 }
  (detectCollision grid nb, nb)

/-- The clockwise branch of `rotateBlock`: for every column index of the
first row, take that column of the grid and reverse it.  Reading
`row[index]` past the end of a row would be `undefined` in JavaScript;
for the square grids the game uses the read is always in range, and the
embedding uses the empty cell as the (unreachable) default. -/
def rotCW (g : Grid) : Grid :=
  (List.range (g.headD []).length).map fun i =>
    (g.map fun row => row.getD i Cell.empty).reverse

/-- The grid built by the counter-clockwise branch of `rotateBlock`
after its `row.reverse()` calls have already reversed every row of `m`
in place: transpose of `m`. -/
def rotCCWOfReversed (m : Grid) : Grid :=
  (List.range (m.headD []).length).map fun i =>
    m.map fun row => row.getD i Cell.empty

/-- `rotateBlock(grid, block, clockwise)` from the source, returning
`(collision verdict, candidate block, state of the input block after the
call)`.  The clockwise branch builds fresh arrays and leaves the input
untouched.  The counter-clockwise branch first evaluates
`block.grid.map((row) => row.reverse())`, and `reverse` mutates each row
of the input grid in place, so the input block ends up with every row
reversed even when the candidate is rejected.  Indexing `[0]` into an
empty grid yields `undefined` and the subsequent `.map` throws, modelled
as `none` (the game only ever rotates 3x3 and 4x4 grids). -/
def rotateBlock (board : Grid) (b : Block) (clockwise : Bool) :
    Option (Bool × Block × Block) :=
  if clockwise then
    match b.grid.head? with
    | none => none
    | some _ =>
      let nb := { b with grid := rotCW b.grid }
      some (detectCollision board nb, nb, b)
  else
    let mutated := b.grid.map List.reverse
    match mutated.head? with
    | none => none
    | some _ =>
      let nb := { b with grid := rotCCWOfReversed mutated }
      some (detectCollision board nb, nb, { b with grid := mutated })

/-- `findDropCollision(grid, block)` from the source: keep moving down
until the candidate collides and return the last non-colliding position.
The source loop is `for (;;)`; the fuel argument counts loop iterations
(calls of `moveBlock`), and `none` means the loop did not finish within
the given fuel. -/
def findDropCollision (grid : Grid) : Nat → Block → Option Block
  | 0, _ => none
  | fuel + 1, b =>
    let step := moveBlock grid b .down
    if step.1 then some b else findDropCollision grid fuel step.2

/-- JavaScript array-element write `draft.grid[r][c] = v`.  When `r` is
outside the outer array, `draft.grid[r]` is `undefined` and the element
write throws a TypeError (`none`).  When `c` is negative the write
records an object property on the row array and the indexed cells stay
unchanged.  (A write with `c` at or past the row length would lengthen
the row, but every call site checks `c < COLS` and board rows have
`COLS` cells, so that case is not reachable on well-formed boards.) -/
def setCell (g : Grid) (r c : Int) (v : Cell) : Option Grid :=
  if r < 0 ∨ (g.length : Int) ≤ r then
    none
  else if c < 0 then
    some g
  else
    some (g.set r.toNat ((g.getD r.toNat []).set c.toNat v))

/-- `stampBlock(board, block)` from the source: write every occupied
piece cell whose absolute coordinate satisfies `x + block.x < COLS` and
`y + block.y < ROWS` into the board (the source checks no lower bounds).
The outer loop runs over `x`, the inner one over `y`. -/
def stampBlock (g : Grid) (b : Block) : Option Grid :=
  (List.range b.grid.length).foldlM
    (fun acc x =>
      (List.range b.grid.length).foldlM
        (fun acc2 y =>
          if jsCell b.grid y x ≠ some Cell.empty ∧
              (x : Int) + b.x < (COLS : Int) ∧ (y : Int) + b.y < (ROWS : Int) then
            setCell acc2 ((y : Int) + b.y) ((x : Int) + b.x) (gget b.grid y x)
          else
            some acc2)
        acc)
    g

/-- A fresh empty row, `range(0, COLS).map(() => '0')`. -/
def emptyRow : List Cell :=
  (List.range COLS).map fun _ => Cell.empty

/-- `defaultState()`: the empty `ROWS x COLS` board. -/
def defaultState : Grid :=
  (List.range ROWS).map fun _ => emptyRow

/-- `state.grid[y].every((cell) => cell !== '0')`. -/
def isRowFull (g : Grid) (y : Nat) : Bool :=
  (g.getD y []).all fun c => c ≠ Cell.empty

/-- The row-clear mutation of the tick handler:
`draft.grid.splice(y, 1); draft.grid.splice(0, 0, emptyRow)` — remove
row `y`, then insert a fresh empty row at index 0. -/
def clearRow (g : Grid) (y : Nat) : Grid :=
  emptyRow :: g.eraseIdx y

/-- A static tetromino definition: spawn offset and occupancy grid (the
`color` field of the source is UI-only and dropped). -/
structure Tetromino where
  x : Int
  y : Int
  grid : Grid
deriving DecidableEq, Repr

/-- Shorthand for a tagged cell in the transcribed templates. -/
def tg (s : Shape) : Cell := Cell.tag s

/-- `TETROMINOS` from the source, with the string templates transcribed
to cell grids (`'0'` is the empty marker, a letter is the kind tag). -/
def TETROMINOS : Shape → Tetromino
  | .I =>
    { x := 3
      y := 0
      grid :=
        [[Cell.empty, tg .I, Cell.empty, Cell.empty],
         [Cell.empty, tg .I, Cell.empty, Cell.empty],
         [Cell.empty, tg .I, Cell.empty, Cell.empty],
         [Cell.empty, tg .I, Cell.empty, Cell.empty]] }
  | .J =>
    { x := 4
      y := 0
      grid :=
        [[Cell.empty, tg .J, Cell.empty],
         [Cell.empty, tg .J, Cell.empty],
         [tg .J, tg .J, Cell.empty]] }
  | .L =>
    { x := 3
      y := 0
      grid :=
        [[Cell.empty, tg .L, Cell.empty],
         [Cell.empty, tg .L, Cell.empty],
         [Cell.empty, tg .L, tg .L]] }
  | .O =>
    { x := 3
      y := -1
      grid :=
        [[Cell.empty, Cell.empty, Cell.empty, Cell.empty],
         [Cell.empty, tg .O, tg .O, Cell.empty],
         [Cell.empty, tg .O, tg .O, Cell.empty],
         [Cell.empty, Cell.empty, Cell.empty, Cell.empty]] }
  | .S =>
    { x := 4
      y := 0
      grid :=
        [[tg .S, Cell.empty, Cell.empty],
         [tg .S, tg .S, Cell.empty],
         [Cell.empty, tg .S, Cell.empty]] }
  | .T =>
    { x := 3
      y := 0
      grid :=
        [[Cell.empty, tg .T, Cell.empty],
         [tg .T, tg .T, tg .T],
         [Cell.empty, Cell.empty, Cell.empty]] }
  | .Z =>
    { x := 4
      y := 0
      grid :=
        [[Cell.empty, tg .Z, Cell.empty],
         [tg .Z, tg .Z, Cell.empty],
         [tg .Z, Cell.empty, Cell.empty]] }

/-- `defaultBlock(time, block?)`: spawn a block of the given kind (the
source picks the kind with `shuffle`; the kind is an explicit argument
here, an oracle for that randomness).  The cooldown is carried over from
the previous block when present and truthy (`block?.cooldown || 1` — a
cooldown equal to `0` is falsy in JavaScript and is replaced by `1`). -/
def defaultBlock (time : ℚ) (shape : Shape) (prev : Option Block) : Block :=
  let t := TETROMINOS shape
  { x := t.x
    y := t.y
    grid := t.grid
    cooldown :=
      match prev with
      | some b => if b.cooldown = 0 then 1 else b.cooldown
      | none => 1
    lastTime := time }

/-- The state of the fixed-timestep clock of `createGameLoop`:
`currentTime` is the last frame timestamp (in seconds), `acc` the
accumulated not-yet-simulated time, `time` the simulation-time signal,
and `ticks` a ghost counter of how many times `onTick` has run. -/
structure ClockState where
  currentTime : ℚ
  acc : ℚ
  time : ℚ
  ticks : Nat
deriving DecidableEq, Repr

/-- The clock state before the first frame. -/
def initClock : ClockState :=
  { currentTime := 0, acc := 0, time := 0, ticks := 0 }

/-- The `while (acc >= dt)` loop of `onFrame`: each iteration runs
`onTick`, adds `dt` to the simulation time and subtracts `dt` from the
accumulator.  Returns the new time, the new accumulator and the number
of ticks emitted; `none` if the loop does not finish within the fuel. -/
def tickLoop (dt : ℚ) : Nat → ℚ → ℚ → Option (ℚ × ℚ × Nat)
  | 0, time, acc =>
    if acc < dt then some (time, acc, 0) else none
  | fuel + 1, time, acc =>
    if acc < dt then
      some (time, acc, 0)
    else
      (tickLoop dt fuel (time + dt) (acc - dt)).map fun r =>
        (r.1, r.2.1, r.2.2 + 1)

/-- The capped per-frame elapsed time of `onFrame`:
`Math.min(newTime - currentTime, 0.25)` with timestamps in
milliseconds. -/
def frameContribution (currentTime timestamp : ℚ) : ℚ :=
  min (timestamp / 1000 - currentTime) (1 / 4)

/-- One `onFrame(timestamp)` callback of `createGameLoop`: convert the
timestamp to seconds, cap the elapsed time at `0.25`, accumulate it only
while running, then emit ticks while a full `dt` is accumulated. -/
def onFrame (dt : ℚ) (fuel : Nat) (s : ClockState) (timestamp : ℚ)
    (running : Bool) : Option ClockState :=
  let newTime := timestamp / 1000
  let frameTime := frameContribution s.currentTime timestamp
  let acc := if running then s.acc + frameTime else s.acc
  (tickLoop dt fuel s.time acc).map fun r =>
    { currentTime := newTime
      acc := r.2.1
      time := r.1
      ticks := s.ticks + r.2.2 }

/-- A sequence of frame callbacks, each with its timestamp and the value
of the `running` predicate at that frame. -/
def runFrames (dt : ℚ) (fuel : Nat) : List (ℚ × Bool) → ClockState → Option ClockState
  | [], s => some s
  | f :: rest, s =>
    match onFrame dt fuel s f.1 f.2 with
    | none => none
    | some s2 => runFrames dt fuel rest s2

/-- The per-session state of the `Stack` component: the board grid, the
active block, and the `frame`, `running` and `gameOver` signals.  The
ghost block is a derived render projection (`findDropCollision` of the
current board and block, recomputed by a render effect) and carries no
independent state, so it is not part of the machine state. -/
structure SessionState where
  grid : Grid
  block : Block
  frame : Nat
  running : Bool
  gameOver : Bool
deriving DecidableEq, Repr

/-- The session state right after component setup: empty board, a block
spawned at time 0, frame 0, running and not game over.  The spawn kind
is the oracle for the `shuffle` call. -/
def initialSession (shape : Shape) : SessionState :=
  { grid := defaultState
    block := defaultBlock 0 shape none
    frame := 0
    running := true
    gameOver := false }

/-- The events the session reacts to: a clock tick (with the current
simulation time and the kind oracle for a possible respawn) and the
keydown commands.  Commands that read the time signal carry it. -/
inductive Event where
  | tick (time : ℚ) (shape : Shape)
  | moveLeft
  | moveRight
  | moveDown (time : ℚ)
  | hardDrop
  | restart (time : ℚ) (shape : Shape)
  | rotate (clockwise : Bool)
  | pauseToggle
deriving DecidableEq, Repr

/-- The row-scan loop at the end of the tick handler: for each `y` from
`0` to `ROWS - 1`, if row `y` of the current grid is full, shrink the
block cooldown by `0.01`, reset its `lastTime` to the tick time, and
clear the row. -/
def clearFullRows (t : ℚ) (b : Block) (g : Grid) : Block × Grid :=
  (List.range ROWS).foldl
    (fun p y =>
      if isRowFull p.2 y then
        ({ p.1 with cooldown := p.1.cooldown - 1 / 100, lastTime := t },
         clearRow p.2 y)
      else p)
    (b, g)

/-- Applies the row-scan loop to a session state. -/
def applyClears (t : ℚ) (s : SessionState) : SessionState :=
  { s with
    block := (clearFullRows t s.block s.grid).1
    grid := (clearFullRows t s.block s.grid).2 }

/-- The tick handler of the `Stack` component.  The clock delivers ticks
only while the running signal is true (the accumulator is below `dt`
whenever the game is paused), so a tick in a non-running state leaves
the state unchanged.  While running: bump the frame counter; when the
fall cooldown has elapsed, stamp the block and respawn on a downward
collision (setting game over when the fresh spawn already collides), or
commit the downward move; finally run the row-scan loop. -/
def tickStep (s : SessionState) (t : ℚ) (shape : Shape) : Option SessionState :=
  if s.running = false then
    some s
  else
    let s1 := { s with frame := s.frame + 1 }
    let b := s1.block
    if b.lastTime + b.cooldown ≤ t then
      let b1 := { b with lastTime := t }
      let step := moveBlock s1.grid b1 .down
      if step.1 then
        match stampBlock s1.grid b1 with
        | none => none
        | some g2 =>
          let newB := defaultBlock t shape (some b1)
          let s2 :=
            if detectCollision g2 newB then
              { s1 with
                grid := g2
                block := newB
                gameOver := true
                running := false }
            else
              { s1 with grid := g2, block := newB }
          some (applyClears t s2)
      else
        some (applyClears t { s1 with block := step.2 })
    else
      some (applyClears t s1)

/-- The keydown fuel used for the hard-drop search: one more than the
board height, enough for every piece with an occupied cell. -/
def dropFuel : Nat := ROWS + 1

/-- One transition of the session state machine: the tick handler or one
of the keydown handlers, with the same running/game-over guards as the
source.  `none` marks a transition on which the source would throw or
fail to terminate (never reachable in play). -/
def sessionStep (s : SessionState) (e : Event) : Option SessionState :=
  match e with
  | .tick t shape => tickStep s t shape
  | .moveLeft =>
    if s.running then
      let step := moveBlock s.grid s.block .left
      some (if step.1 then s else { s with block := step.2 })
    else some s
  | .moveRight =>
    if s.running then
      let step := moveBlock s.grid s.block .right
      some (if step.1 then s else { s with block := step.2 })
    else some s
  | .moveDown t =>
    if s.running then
      let step := moveBlock s.grid s.block .down
      some (if step.1 then s
            else { s with block := { step.2 with lastTime := t } })
    else some s
  | .hardDrop =>
    if s.running then
      match findDropCollision s.grid dropFuel s.block with
      | none => none
      | some b2 => some { s with block := { b2 with lastTime := 0 } }
    else some s
  | .restart t shape =>
    if s.running then some s
    else
      some { grid := defaultState
             block := defaultBlock t shape none
             frame := s.frame
             running := true
             gameOver := false }
  | .rotate clockwise =>
    if s.running then
      match rotateBlock s.grid s.block clockwise with
      | none => none
      | some r =>
        some (if r.1 then { s with block := r.2.2 }
              else { s with block := r.2.1 })
    else some s
  | .pauseToggle =>
    if s.gameOver then some s else some { s with running := !s.running }

/-- The session states reachable from a fresh component by ticks and
commands. -/
inductive Reachable : SessionState → Prop where
  | init (shape : Shape) : Reachable (initialSession shape)
  | step {s s2 : SessionState} (e : Event) :
      Reachable s → sessionStep s e = some s2 → Reachable s2

/-- One manual soft-drop step as the scenario of claim C3 performs it:
try `moveBlock(grid, b, 'down')` and commit the candidate only when the
verdict reports no collision. -/
def commitDown (g : Grid) (b : Block) : Block :=
  let step := moveBlock g b .down
  if step.1 then b else step.2

/-- The block after `n` soft-drop attempts, each committed on success. -/
def afterDownMoves (g : Grid) (b : Block) : Nat → Block
  | 0 => b
  | n + 1 => commitDown g (afterDownMoves g b n)

/-- The collision verdict reported by the `k`-th soft-drop attempt
(1-indexed): the verdict of `moveBlock .down` from the state reached
after the first `k - 1` attempts. -/
def nthDownVerdict (g : Grid) (b : Block) (k : Nat) : Bool :=
  (moveBlock g (afterDownMoves g b (k - 1)) .down).1

/-- The I-piece freshly spawned at its offset `(3, 0)`, as in the
scenario of claim C3. -/
def iBlock : Block :=
  defaultBlock 0 .I none

/-- A one-cell piece whose only cell is occupied, hovering one row above
the board: the drop search needs `ROWS + 1` loop iterations here. -/
def loneCell : Block :=
  { x := 0, y := -1, grid := [[Cell.tag .I]], cooldown := 1, lastTime := 0 }

/-- A piece whose occupancy grid is entirely empty: it never collides,
so the drop-search loop of the source never exits. -/
def emptyPiece : Block :=
  { x := 0, y := 0, grid := [[Cell.empty]], cooldown := 1, lastTime := 0 }

/-- A one-cell piece whose occupied cell has absolute coordinate
`(0, -1)`: inside the guard of `stampBlock` but on a row index where the
write throws. -/
def hoverPiece : Block :=
  { x := 0, y := -1, grid := [[Cell.tag .I]], cooldown := 1, lastTime := 0 }

/-- Claim C10: the counter-clockwise branch of `rotateBlock` reverses
every row of the input piece grid in place (the call returns with the
input piece mutated, whatever the collision verdict, since the verdict
is not inspected before the mutation happens), while the clockwise
branch leaves the input piece unchanged. -/
theorem rotateBlock_mutates_input_ccw (board : Grid) (b : Block)
    (hne : b.grid ≠ []) :
    (∃ p, rotateBlock board b false = some p ∧
        p.2.2 = { b with grid := b.grid.map List.reverse }) ∧
    (∃ q, rotateBlock board b true = some q ∧ q.2.2 = b) := by
  obtain ⟨r, rest, hb⟩ : ∃ r rest, b.grid = r :: rest := by
    cases h : b.grid with
    | nil => exact absurd h hne
    | cons r rest => exact ⟨r, rest, rfl⟩
  constructor
  · have h1 : rotateBlock board b false =
        some (detectCollision board
                { b with grid := rotCCWOfReversed (b.grid.map List.reverse) },
              { b with grid := rotCCWOfReversed (b.grid.map List.reverse) },
              { b with grid := b.grid.map List.reverse }) := by
      rw [rotateBlock]
      simp [hb]
    exact ⟨_, h1, rfl⟩
  · have h2 : rotateBlock board b true =
        some (detectCollision board { b with grid := rotCW b.grid },
              { b with grid := rotCW b.grid }, b) := by
      rw [rotateBlock]
      simp [hb]
    exact ⟨_, h2, rfl⟩

/-- Witness for C10 at the I-piece on the empty board. -/
theorem rotateBlock_mutates_input_ccw_witness :
    iBlock.grid ≠ [] ∧
    ((∃ p, rotateBlock defaultState iBlock false = some p ∧
        p.2.2 = { iBlock with grid := iBlock.grid.map List.reverse }) ∧
     (∃ q, rotateBlock defaultState iBlock true = some q ∧ q.2.2 = iBlock)) :=
  ⟨by decide, rotateBlock_mutates_input_ccw defaultState iBlock (by decide)⟩

/-- Claim C2 (code bug): `stampBlock` guards only the upper bounds
`x + block.x < COLS` and `y + block.y < ROWS`.  An occupied cell whose
absolute row is negative passes the guard, and the write
`draft.grid[-1][...]` throws a TypeError instead of being silently
skipped (first conjunct).  Cells that are in bounds are written as the
claim says (second conjunct). -/
theorem stampBlock_negative_row_throws :
    stampBlock defaultState hoverPiece = none ∧
    (stampBlock defaultState { iBlock with y := 12 }).map
        (fun g => (gget g 12 4, gget g 15 4, gget g 11 4)) =
      some (Cell.tag .I, Cell.tag .I, Cell.empty) := by
  constructor
  · decide
  · decide

/-- Claim C3 counterexample: on the empty board the 13th soft-drop of a
freshly spawned I-piece already reports a collision, so it is not the
case that each of the first 15 soft-drops succeeds. -/
theorem iBlock_thirteenth_down_collides :
    ¬ ∀ k, k < 15 → nthDownVerdict defaultState iBlock (k + 1) = false := by
  intro h
  have h13 : nthDownVerdict defaultState iBlock 13 = true := by decide
  have := h 12 (by omega)
  rw [this] at h13
  exact Bool.false_ne_true h13

/-- Claim C3 (amended): the I-piece spawned at `(3, 0)` on the empty
`10 x 16` board moves down 12 times without collision, and the 13th
soft-drop attempt reports a collision (the piece occupies rows
`y .. y + 3`, so it rests once row 15 is reached at `y = 12`). -/
theorem iBlock_down_moves :
    ((List.range 12).all fun k =>
        ! nthDownVerdict defaultState iBlock (k + 1)) = true ∧
    nthDownVerdict defaultState iBlock 13 = true := by
  constructor
  · decide
  · decide

/-- Claim C4 counterexample: the drop search is not bounded by `ROWS`
loop iterations.  A piece with an all-empty occupancy grid never
collides, so the loop does not finish within `ROWS` iterations (nor any
other number); and even a piece with an occupied cell, spawned one row
above the board, needs `ROWS + 1` iterations. -/
theorem findDropCollision_not_bounded_by_ROWS :
    findDropCollision defaultState ROWS emptyPiece = none ∧
    findDropCollision defaultState ROWS loneCell = none ∧
    findDropCollision defaultState (ROWS + 1) loneCell =
      some { loneCell with y := 15 } := by
  refine ⟨?_, ?_, ?_⟩ <;> decide

/-- The position returned by a successful drop search is blocked: one
more step down from it collides (that is exactly the exit condition of
the loop). -/
theorem findDropCollision_result_blocked (g : Grid) :
    ∀ fuel (b r : Block), findDropCollision g fuel b = some r →
      (moveBlock g r .down).1 = true := by
  intro fuel
  induction fuel with
  | zero =>
    intro b r h
    simp [findDropCollision] at h
  | succ n ih =>
    intro b r h
    rw [findDropCollision] at h
    by_cases hc : (moveBlock g b .down).1 = true
    · simp [hc] at h
      rw [← h]
      exact hc
    · simp [hc] at h
      exact ih _ _ h

/-- Claim C7: the drop search is idempotent.  Whenever
`findDropCollision` finishes and returns a resting position `r`,
running it again from `r` returns `r` itself (with the same fuel). -/
theorem findDropCollision_idempotent (g : Grid) (fuel : Nat) (b r : Block)
    (h : findDropCollision g fuel b = some r) :
    findDropCollision g fuel r = some r := by
  have hblk := findDropCollision_result_blocked g fuel b r h
  cases fuel with
  | zero => simp [findDropCollision] at h
  | succ n =>
    rw [findDropCollision]
    simp [hblk]

/-- Witness for C7: the I-piece on the empty board drops to `y = 12`,
and re-running the search from there returns the same position. -/
theorem findDropCollision_idempotent_witness :
    findDropCollision defaultState 17 iBlock = some { iBlock with y := 12 } ∧
    findDropCollision defaultState 17 { iBlock with y := 12 } =
      some { iBlock with y := 12 } :=
  ⟨by decide,
   findDropCollision_idempotent defaultState 17 iBlock { iBlock with y := 12 }
     (by decide)⟩

/-- Each iteration of the tick loop adds exactly `dt` to the simulation
time, so a successful loop run adds `n * dt` where `n` is the number of
ticks it emitted. -/
theorem tickLoop_time (dt : ℚ) :
    ∀ (fuel : Nat) (t a t2 a2 : ℚ) (n : Nat),
      tickLoop dt fuel t a = some (t2, a2, n) → t2 = t + (n : ℚ) * dt := by
  intro fuel
  induction fuel with
  | zero =>
    intro t a t2 a2 n h
    rw [tickLoop] at h
    by_cases hlt : a < dt
    · rw [if_pos hlt] at h
      obtain ⟨h1, h2, h3⟩ : t = t2 ∧ a = a2 ∧ 0 = n := by
        simpa [Prod.ext_iff] using h
      simp [← h1, ← h3]
    · rw [if_neg hlt] at h
      cases h
  | succ m ih =>
    intro t a t2 a2 n h
    rw [tickLoop] at h
    by_cases hlt : a < dt
    · rw [if_pos hlt] at h
      obtain ⟨h1, h2, h3⟩ : t = t2 ∧ a = a2 ∧ 0 = n := by
        simpa [Prod.ext_iff] using h
      simp [← h1, ← h3]
    · rw [if_neg hlt] at h
      cases hr : tickLoop dt m (t + dt) (a - dt) with
      | none => rw [hr] at h; cases h
      | some r =>
        obtain ⟨rt, ra, rn⟩ := r
        rw [hr] at h
        obtain ⟨h1, h2, h3⟩ : rt = t2 ∧ ra = a2 ∧ rn + 1 = n := by
          simpa [Prod.ext_iff] using h
        have hrec := ih (t + dt) (a - dt) rt ra rn hr
        rw [← h1, ← h3, hrec]
        push_cast
        ring

/-- A successful frame leaves the tick counter no smaller and moves the
simulation time forward by exactly `dt` per tick emitted during the
frame. -/
theorem onFrame_time (dt : ℚ) (fuel : Nat) (s : ClockState) (ts : ℚ)
    (run : Bool) (s2 : ClockState)
    (h : onFrame dt fuel s ts run = some s2) :
    s.ticks ≤ s2.ticks ∧
    s2.time = s.time + ((s2.ticks - s.ticks : ℕ) : ℚ) * dt := by
  simp only [onFrame] at h
  rw [Option.map_eq_some'] at h
  obtain ⟨r, hr, hs2⟩ := h
  obtain ⟨rt, ra, rn⟩ := r
  have ht := tickLoop_time dt fuel s.time _ rt ra rn hr
  subst hs2
  refine ⟨Nat.le_add_right _ _, ?_⟩
  show rt = s.time + ((s.ticks + rn - s.ticks : ℕ) : ℚ) * dt
  have e : s.ticks + rn - s.ticks = rn := by omega
  rw [ht, e]

/-- The time-equals-ticks-times-dt invariant survives any sequence of
frames, whatever their timestamps and running flags. -/
theorem runFrames_time_invariant (dt : ℚ) (fuel : Nat) :
    ∀ (frames : List (ℚ × Bool)) (s u : ClockState),
      runFrames dt fuel frames s = some u →
      s.time = (s.ticks : ℚ) * dt → u.time = (u.ticks : ℚ) * dt := by
  intro frames
  induction frames with
  | nil =>
    intro s u h hs
    rw [runFrames] at h
    cases h
    exact hs
  | cons f rest ih =>
    intro s u h hs
    rw [runFrames] at h
    cases hf : onFrame dt fuel s f.1 f.2 with
    | none => rw [hf] at h; cases h
    | some s2 =>
      rw [hf] at h
      obtain ⟨hle, htime⟩ := onFrame_time dt fuel s f.1 f.2 s2 hf
      refine ih s2 u h ?_
      rw [htime, hs, Nat.cast_sub hle]
      ring

/-- Claim C9: the simulation time of the clock is monotone, advances by
exactly `dt` per emitted tick (never by the wall-clock delta between
frames), equals `ticks * dt` after any sequence of frames from the
initial clock state, and the per-frame elapsed-time contribution is
capped at `0.25` seconds. -/
theorem clock_time_deterministic (dt : ℚ) (fuel : Nat) (s : ClockState)
    (ts : ℚ) (run : Bool) (s2 : ClockState) (hdt : 0 ≤ dt)
    (h : onFrame dt fuel s ts run = some s2) :
    s.time ≤ s2.time ∧
    s.ticks ≤ s2.ticks ∧
    s2.time = s.time + ((s2.ticks - s.ticks : ℕ) : ℚ) * dt ∧
    frameContribution s.currentTime ts ≤ 1 / 4 ∧
    (∀ (fuel2 : Nat) (frames : List (ℚ × Bool)) (u : ClockState),
      runFrames dt fuel2 frames initClock = some u →
      u.time = (u.ticks : ℚ) * dt) := by
  obtain ⟨hle, htime⟩ := onFrame_time dt fuel s ts run s2 h
  refine ⟨?_, hle, htime, min_le_right _ _, ?_⟩
  · rw [htime]
    have : 0 ≤ ((s2.ticks - s.ticks : ℕ) : ℚ) * dt :=
      mul_nonneg (by positivity) hdt
    linarith
  · intro fuel2 frames u hu
    exact runFrames_time_invariant dt fuel2 frames initClock u hu
      (by simp [initClock])

/-- The clock state after a single frame at timestamp 1000 ms with
`dt = 1`: elapsed time is capped at `0.25`, which is below `dt`, so no
tick is emitted. -/
def clockAfterFirstFrame : ClockState :=
  { currentTime := 1, acc := 1 / 4, time := 0, ticks := 0 }

/-- Witness for C9: a concrete first frame with `dt = 1`. -/
theorem clock_time_deterministic_witness :
    ((0 : ℚ) ≤ 1 ∧
      onFrame 1 0 initClock 1000 true = some clockAfterFirstFrame) ∧
    (initClock.time ≤ clockAfterFirstFrame.time ∧
     initClock.ticks ≤ clockAfterFirstFrame.ticks ∧
     clockAfterFirstFrame.time =
       initClock.time +
         ((clockAfterFirstFrame.ticks - initClock.ticks : ℕ) : ℚ) * 1 ∧
     frameContribution initClock.currentTime 1000 ≤ 1 / 4 ∧
     (∀ (fuel2 : Nat) (frames : List (ℚ × Bool)) (u : ClockState),
       runFrames 1 fuel2 frames initClock = some u →
       u.time = (u.ticks : ℚ) * 1)) := by
  have hle : (0 : ℚ) ≤ 1 := by norm_num
  have heq : onFrame 1 0 initClock 1000 true = some clockAfterFirstFrame := by
    simp only [onFrame, frameContribution, initClock, tickLoop,
      clockAfterFirstFrame]
    norm_num [min_def]
  exact ⟨⟨hle, heq⟩,
    clock_time_deterministic 1 0 initClock 1000 true clockAfterFirstFrame
      hle heq⟩

/-- Total number of cells of a grid (sum of the row lengths). -/
def cellCount (g : Grid) : Nat :=
  (g.map List.length).sum

/-- Every grid whose rows all have `COLS` cells has `length * COLS`
cells in total. -/
theorem cellCount_of_rows (l : Grid) (h : ∀ r ∈ l, r.length = COLS) :
    cellCount l = l.length * COLS := by
  induction l with
  | nil => simp [cellCount]
  | cons r t ih =>
    have hr : r.length = COLS := h r (by simp)
    have ht : cellCount t = t.length * COLS :=
      ih fun r2 hr2 => h r2 (by simp [hr2])
    simp only [cellCount, List.map_cons, List.sum_cons, List.length_cons]
    rw [hr]
    rw [cellCount] at ht
    rw [ht]
    ring

/-- Claim C6: clearing a full row `y` keeps the board at
`ROWS x COLS` and the same total cell count, shifts every row above the
cleared index (index strictly less than `y`) down by one index, and
puts a fresh all-empty row at index 0. -/
theorem clearRow_spec (g : Grid) (y : Nat) (hwf : boardWF g) (hy : y < ROWS)
    (hfull : isRowFull g y = true) :
    (clearRow g y).length = ROWS ∧
    (∀ row ∈ clearRow g y, row.length = COLS) ∧
    cellCount (clearRow g y) = cellCount g ∧
    (∀ i, i < y → (clearRow g y).getD (i + 1) [] = g.getD i []) ∧
    (clearRow g y).getD 0 [] = emptyRow ∧
    (∀ c ∈ emptyRow, c = Cell.empty) := by
  obtain ⟨hlen, hrows⟩ := hwf
  have herase : (g.eraseIdx y).length = ROWS - 1 := by
    rw [List.length_eraseIdx, hlen]
    simp [hy]
  have hclen : (clearRow g y).length = ROWS := by
    simp only [clearRow, List.length_cons, herase]
    have : 0 < ROWS := by norm_num [ROWS]
    omega
  have hcrows : ∀ row ∈ clearRow g y, row.length = COLS := by
    intro row hrow
    rw [clearRow, List.mem_cons] at hrow
    rcases hrow with h | h
    · rw [h]
      simp [emptyRow]
    · exact hrows row (List.mem_of_mem_eraseIdx h)
  refine ⟨hclen, hcrows, ?_, ?_, ?_, ?_⟩
  · rw [cellCount_of_rows (clearRow g y) hcrows, cellCount_of_rows g hrows,
      hclen, hlen]
  · intro i hi
    have hi2 : i < (g.eraseIdx y).length := by omega
    have hig : i < g.length := by omega
    rw [clearRow, List.getD_cons_succ, List.getD_eq_getElem _ _ hi2,
      List.getD_eq_getElem _ _ hig, List.getElem_eraseIdx]
    simp [hi]
  · rw [clearRow]
    rfl
  · intro c hc
    rw [emptyRow] at hc
    obtain ⟨_, _, rfl⟩ := List.mem_map.mp hc
    rfl

/-- A board whose bottom row is completely filled. -/
def fullBottomBoard : Grid :=
  ((List.range 15).map fun _ => emptyRow) ++
    [(List.range COLS).map fun _ => Cell.tag .I]

/-- Witness for C6 at the board whose bottom row (index 15) is full. -/
theorem clearRow_spec_witness :
    (boardWF fullBottomBoard ∧ 15 < ROWS ∧
      isRowFull fullBottomBoard 15 = true) ∧
    ((clearRow fullBottomBoard 15).length = ROWS ∧
     (∀ row ∈ clearRow fullBottomBoard 15, row.length = COLS) ∧
     cellCount (clearRow fullBottomBoard 15) = cellCount fullBottomBoard ∧
     (∀ i, i < 15 →
       (clearRow fullBottomBoard 15).getD (i + 1) [] =
         fullBottomBoard.getD i []) ∧
     (clearRow fullBottomBoard 15).getD 0 [] = emptyRow ∧
     (∀ c ∈ emptyRow, c = Cell.empty)) :=
  ⟨⟨by decide, by decide, by decide⟩,
   clearRow_spec fullBottomBoard 15 (by decide) (by decide) (by decide)⟩

/-- In a square grid, every row indexed below the outer length has the
outer length. -/
theorem sq_row_length (g : Grid) (hsq : isSquare g) (y : Nat)
    (hy : y < g.length) : (g.getD y []).length = g.length := by
  rw [List.getD_eq_getElem _ _ hy]
  exact hsq _ (List.getElem_mem hy)

/-- The JavaScript read agrees with the defaulted read inside the
row. -/
theorem jsCell_eq_gget (g : Grid) (y x : Nat)
    (hx : x < (g.getD y []).length) : jsCell g y x = some (gget g y x) := by
  rw [jsCell, gget, List.getElem?_eq_getElem hx, List.getD_eq_getElem _ _ hx]

/-- Per-cell characterisation of `cellCollides` on a square piece grid
and a well-formed board. -/
theorem cellCollides_iff (board : Grid) (b : Block)
    (hwf : boardWF board) (hsq : isSquare b.grid) (y x : Nat)
    (hy : y < b.grid.length) (hx : x < b.grid.length) :
    cellCollides board b y x = true ↔
      (gget b.grid y x ≠ Cell.empty ∧
        (((x : Int) + b.x < 0 ∨ (y : Int) + b.y < 0 ∨
            (COLS : Int) ≤ (x : Int) + b.x ∨ (ROWS : Int) ≤ (y : Int) + b.y) ∨
          gget board ((y : Int) + b.y).toNat ((x : Int) + b.x).toNat ≠
            Cell.empty)) := by
  have hx2 : x < (b.grid.getD y []).length := by
    rw [sq_row_length b.grid hsq y hy]
    exact hx
  simp only [cellCollides, jsCell_eq_gget b.grid y x hx2]
  by_cases he : gget b.grid y x = Cell.empty
  · simp [he]
  · rw [if_neg (by simpa using he)]
    by_cases hbad : ((x : Int) + b.x < 0 ∨ (y : Int) + b.y < 0 ∨
        (COLS : Int) ≤ (x : Int) + b.x ∨ (ROWS : Int) ≤ (y : Int) + b.y)
    · simp [hbad, he]
    · rw [if_neg hbad]
      have hb1 : ((y : Int) + b.y).toNat < board.length := by
        rw [hwf.1]
        simp only [not_or, not_lt, not_le] at hbad
        omega
      have hb2 : ((x : Int) + b.x).toNat <
          (board.getD ((y : Int) + b.y).toNat []).length := by
        rw [List.getD_eq_getElem _ _ hb1]
        rw [hwf.2 _ (List.getElem_mem hb1)]
        simp only [not_or, not_lt, not_le] at hbad
        omega
      rw [jsCell_eq_gget board _ _ hb2]
      simp [he, hbad]

/-- Claim C1: `detectCollision` is true exactly when some occupied piece
cell, translated by the piece offset, leaves `[0,COLS) x [0,ROWS)` or
lands on a non-empty board cell; and a piece whose occupancy grid is
entirely empty never collides, for any offset and any board. -/
theorem detectCollision_iff (board : Grid) (b : Block)
    (hwf : boardWF board) (hsq : isSquare b.grid) :
    (detectCollision board b = true ↔
      ∃ y x, y < b.grid.length ∧ x < b.grid.length ∧
        gget b.grid y x ≠ Cell.empty ∧
        (((x : Int) + b.x < 0 ∨ (y : Int) + b.y < 0 ∨
            (COLS : Int) ≤ (x : Int) + b.x ∨ (ROWS : Int) ≤ (y : Int) + b.y) ∨
          gget board ((y : Int) + b.y).toNat ((x : Int) + b.x).toNat ≠
            Cell.empty)) ∧
    ((∀ y x, y < b.grid.length → x < b.grid.length →
        gget b.grid y x = Cell.empty) → detectCollision board b = false) := by
  have hiff : detectCollision board b = true ↔
      ∃ y x, y < b.grid.length ∧ x < b.grid.length ∧
        gget b.grid y x ≠ Cell.empty ∧
        (((x : Int) + b.x < 0 ∨ (y : Int) + b.y < 0 ∨
            (COLS : Int) ≤ (x : Int) + b.x ∨ (ROWS : Int) ≤ (y : Int) + b.y) ∨
          gget board ((y : Int) + b.y).toNat ((x : Int) + b.x).toNat ≠
            Cell.empty) := by
    rw [detectCollision]
    simp only [List.any_eq_true, List.mem_range]
    constructor
    · rintro ⟨y, hy, x, hx, hc⟩
      exact ⟨y, x, hy, hx, (cellCollides_iff board b hwf hsq y x hy hx).mp hc⟩
    · rintro ⟨y, x, hy, hx, hrhs⟩
      exact ⟨y, hy, x, hx, (cellCollides_iff board b hwf hsq y x hy hx).mpr hrhs⟩
  refine ⟨hiff, ?_⟩
  intro hall
  cases hdc : detectCollision board b with
  | false => rfl
  | true =>
    obtain ⟨y, x, hy, hx, hocc, _⟩ := hiff.mp hdc
    exact absurd (hall y x hy hx) hocc

/-- Witness for C1: the I-piece at its spawn position on the empty
board. -/
theorem detectCollision_iff_witness :
    (boardWF defaultState ∧ isSquare iBlock.grid) ∧
    ((detectCollision defaultState iBlock = true ↔
      ∃ y x, y < iBlock.grid.length ∧ x < iBlock.grid.length ∧
        gget iBlock.grid y x ≠ Cell.empty ∧
        (((x : Int) + iBlock.x < 0 ∨ (y : Int) + iBlock.y < 0 ∨
            (COLS : Int) ≤ (x : Int) + iBlock.x ∨
            (ROWS : Int) ≤ (y : Int) + iBlock.y) ∨
          gget defaultState ((y : Int) + iBlock.y).toNat
              ((x : Int) + iBlock.x).toNat ≠ Cell.empty)) ∧
    ((∀ y x, y < iBlock.grid.length → x < iBlock.grid.length →
        gget iBlock.grid y x = Cell.empty) →
      detectCollision defaultState iBlock = false)) :=
  ⟨⟨by decide, by decide⟩,
   detectCollision_iff defaultState iBlock (by decide) (by decide)⟩

/-- Two grids with equal outer length, matching row lengths and matching
cells are equal. -/
theorem grid_ext (g1 g2 : Grid) (hlen : g1.length = g2.length)
    (hrows : ∀ i, i < g1.length → (g1.getD i []).length = (g2.getD i []).length)
    (hcells : ∀ i j, i < g1.length → j < (g1.getD i []).length →
      gget g1 i j = gget g2 i j) :
    g1 = g2 := by
  apply List.ext_getElem hlen
  intro i h1 h2
  apply List.ext_getElem
  · have := hrows i h1
    rwa [List.getD_eq_getElem _ _ h1, List.getD_eq_getElem _ _ h2] at this
  · intro j hj1 hj2
    have := hcells i j h1 (by rwa [List.getD_eq_getElem _ _ h1])
    rw [gget, gget, List.getD_eq_getElem _ _ h1, List.getD_eq_getElem _ _ h2]
      at this
    rwa [List.getD_eq_getElem _ _ hj1, List.getD_eq_getElem _ _ hj2] at this

/-- Two square grids of the same size with the same cells are equal. -/
theorem square_ext (g1 g2 : Grid) (h1 : isSquare g1) (h2 : isSquare g2)
    (hlen : g1.length = g2.length)
    (hcells : ∀ i j, i < g1.length → j < g1.length →
      gget g1 i j = gget g2 i j) :
    g1 = g2 := by
  refine grid_ext g1 g2 hlen (fun i hi => ?_) (fun i j hi hj => ?_)
  · rw [sq_row_length g1 h1 i hi, sq_row_length g2 h2 i (hlen ▸ hi), hlen]
  · exact hcells i j hi (by rwa [sq_row_length g1 h1 i hi] at hj)

/-- The defaulted head of a square grid has the outer length. -/
theorem headD_length (g : Grid) (hsq : isSquare g) :
    (g.headD []).length = g.length := by
  cases g with
  | nil => rfl
  | cons r t => exact hsq r (by simp)

/-- The clockwise rotation keeps the outer length of a square grid. -/
theorem rotCW_length (g : Grid) (hsq : isSquare g) :
    (rotCW g).length = g.length := by
  rw [rotCW, List.length_map, List.length_range, headD_length g hsq]

/-- The row of index `i` of the clockwise rotation, for `i` below the
outer length of a square grid. -/
theorem rotCW_row (g : Grid) (hsq : isSquare g) (i : Nat)
    (hi : i < g.length) :
    (rotCW g).getD i [] = (g.map fun row => row.getD i Cell.empty).reverse := by
  rw [rotCW, List.getD_eq_getElem?_getD, List.getElem?_map,
    List.getElem?_range (by rw [headD_length g hsq]; exact hi)]
  rfl

/-- The clockwise rotation of a square grid is square. -/
theorem rotCW_square (g : Grid) (hsq : isSquare g) : isSquare (rotCW g) := by
  intro row hrow
  rw [rotCW] at hrow
  obtain ⟨i, _, rfl⟩ := List.mem_map.mp hrow
  rw [List.length_reverse, List.length_map, rotCW_length g hsq]

/-- Cell-level description of the clockwise rotation on a square grid:
entry `(i, j)` comes from entry `(n - 1 - j, i)` of the input. -/
theorem rotCW_gget (g : Grid) (hsq : isSquare g) (i j : Nat)
    (hi : i < g.length) (hj : j < g.length) :
    gget (rotCW g) i j = gget g (g.length - 1 - j) i := by
  have hrev : j < ((g.map fun row => row.getD i Cell.empty).reverse).length := by
    simpa using hj
  have hj2 : g.length - 1 - j < g.length := by omega
  rw [gget, rotCW_row g hsq i hi, List.getD_eq_getElem _ _ hrev,
    List.getElem_reverse]
  rw [gget, List.getD_eq_getElem _ _ hj2]
  simp

/-- The row of index `i` of the counter-clockwise transpose, for `i`
below the outer length of a square grid. -/
theorem rotCCWOfReversed_row (m : Grid) (hsq : isSquare m) (i : Nat)
    (hi : i < m.length) :
    (rotCCWOfReversed m).getD i [] = m.map fun row => row.getD i Cell.empty := by
  rw [rotCCWOfReversed, List.getD_eq_getElem?_getD, List.getElem?_map,
    List.getElem?_range (by rw [headD_length m hsq]; exact hi)]
  rfl

/-- The counter-clockwise transpose keeps the outer length of a square
grid. -/
theorem rotCCWOfReversed_length (m : Grid) (hsq : isSquare m) :
    (rotCCWOfReversed m).length = m.length := by
  rw [rotCCWOfReversed, List.length_map, List.length_range,
    headD_length m hsq]

/-- The counter-clockwise transpose of a square grid is square. -/
theorem rotCCWOfReversed_square (m : Grid) (hsq : isSquare m) :
    isSquare (rotCCWOfReversed m) := by
  intro row hrow
  rw [rotCCWOfReversed] at hrow
  obtain ⟨i, _, rfl⟩ := List.mem_map.mp hrow
  rw [List.length_map, rotCCWOfReversed_length m hsq]

/-- Cell-level description of the counter-clockwise transpose on a
square grid: it is the transpose. -/
theorem rotCCWOfReversed_gget (m : Grid) (hsq : isSquare m) (i j : Nat)
    (hi : i < m.length) (hj : j < m.length) :
    gget (rotCCWOfReversed m) i j = gget m j i := by
  have hmap : j < (m.map fun row => row.getD i Cell.empty).length := by
    simpa using hj
  rw [gget, rotCCWOfReversed_row m hsq i hi, List.getD_eq_getElem _ _ hmap]
  rw [gget, List.getD_eq_getElem _ _ hj]
  simp

/-- Reversing every row of a square grid gives a square grid. -/
theorem mapReverse_square (g : Grid) (hsq : isSquare g) :
    isSquare (g.map List.reverse) := by
  intro row hrow
  obtain ⟨r, hr, rfl⟩ := List.mem_map.mp hrow
  simp [hsq r hr]

/-- Cell-level description of reversing every row of a square grid. -/
theorem mapReverse_gget (g : Grid) (hsq : isSquare g) (i j : Nat)
    (hi : i < g.length) (hj : j < g.length) :
    gget (g.map List.reverse) i j = gget g i (g.length - 1 - j) := by
  have hi2 : i < (g.map List.reverse).length := by simpa using hi
  have hrowlen : (g[i]).length = g.length := hsq _ (List.getElem_mem hi)
  have hrev : j < (g[i].reverse).length := by simpa [hrowlen] using hj
  rw [gget, List.getD_eq_getElem _ _ hi2, List.getElem_map,
    List.getD_eq_getElem _ _ hrev, List.getElem_reverse]
  rw [gget, List.getD_eq_getElem _ _ hi,
    List.getD_eq_getElem _ _
      (show g.length - 1 - j < (g[i]).length by rw [hrowlen]; omega)]
  congr 1
  rw [hrowlen]

/-- Four clockwise rotations return a square grid to the original. -/
theorem rotCW_four (g : Grid) (hsq : isSquare g) :
    rotCW (rotCW (rotCW (rotCW g))) = g := by
  have s1 := rotCW_square g hsq
  have l1 := rotCW_length g hsq
  have s2 := rotCW_square _ s1
  have l2 := rotCW_length _ s1
  have s3 := rotCW_square _ s2
  have l3 := rotCW_length _ s2
  have s4 := rotCW_square _ s3
  have l4 := rotCW_length _ s3
  have L : (rotCW (rotCW (rotCW (rotCW g)))).length = g.length := by
    rw [l4, l3, l2, l1]
  apply square_ext _ _ s4 hsq L
  intro i j hi hj
  rw [L] at hi hj
  have hin : i < g.length := hi
  have hjn : j < g.length := hj
  have e4 : gget (rotCW (rotCW (rotCW (rotCW g)))) i j =
      gget (rotCW (rotCW (rotCW g))) (g.length - 1 - j) i := by
    have := rotCW_gget (rotCW (rotCW (rotCW g))) s3 i j
      (by rw [l3, l2, l1]; exact hin) (by rw [l3, l2, l1]; exact hjn)
    rwa [l3, l2, l1] at this
  have e3 : gget (rotCW (rotCW (rotCW g))) (g.length - 1 - j) i =
      gget (rotCW (rotCW g)) (g.length - 1 - i) (g.length - 1 - j) := by
    have := rotCW_gget (rotCW (rotCW g)) s2 (g.length - 1 - j) i
      (by rw [l2, l1]; omega) (by rw [l2, l1]; exact hin)
    rwa [l2, l1] at this
  have e2 : gget (rotCW (rotCW g)) (g.length - 1 - i) (g.length - 1 - j) =
      gget (rotCW g) j (g.length - 1 - i) := by
    have := rotCW_gget (rotCW g) s1 (g.length - 1 - i) (g.length - 1 - j)
      (by rw [l1]; omega) (by rw [l1]; omega)
    rw [l1] at this
    rwa [show g.length - 1 - (g.length - 1 - j) = j by omega] at this
  have e1 : gget (rotCW g) j (g.length - 1 - i) = gget g i j := by
    have := rotCW_gget g hsq j (g.length - 1 - i) hjn (by omega)
    rwa [show g.length - 1 - (g.length - 1 - i) = i by omega] at this
  rw [e4, e3, e2, e1]

/-- A clockwise rotation followed by the counter-clockwise branch
(whose in-place row reversal has already happened) returns a square
grid to the original. -/
theorem rotCW_then_ccw (g : Grid) (hsq : isSquare g) :
    rotCCWOfReversed ((rotCW g).map List.reverse) = g := by
  have s1 := rotCW_square g hsq
  have l1 := rotCW_length g hsq
  have sm := mapReverse_square _ s1
  have lm : ((rotCW g).map List.reverse).length = g.length := by
    rw [List.length_map, l1]
  have L : (rotCCWOfReversed ((rotCW g).map List.reverse)).length = g.length := by
    rw [rotCCWOfReversed_length _ sm, lm]
  apply square_ext _ _ (rotCCWOfReversed_square _ sm) hsq L
  intro i j hi hj
  rw [L] at hi hj
  have e1 : gget (rotCCWOfReversed ((rotCW g).map List.reverse)) i j =
      gget ((rotCW g).map List.reverse) j i := by
    have := rotCCWOfReversed_gget _ sm i j (by rw [lm]; exact hi)
      (by rw [lm]; exact hj)
    exact this
  have e2 : gget ((rotCW g).map List.reverse) j i =
      gget (rotCW g) j (g.length - 1 - i) := by
    have := mapReverse_gget (rotCW g) s1 j i (by rw [l1]; exact hj)
      (by rw [l1]; exact hi)
    rwa [l1] at this
  have e3 : gget (rotCW g) j (g.length - 1 - i) = gget g i j := by
    have := rotCW_gget g hsq j (g.length - 1 - i) hj (by omega)
    rwa [show g.length - 1 - (g.length - 1 - i) = i by omega] at this
  rw [e1, e2, e3]

/-- The clockwise branch of `rotateBlock` on a block with a non-empty
grid. -/
theorem rotateBlock_cw_eq (board : Grid) (b : Block) (hne : b.grid ≠ []) :
    rotateBlock board b true =
      some (detectCollision board { b with grid := rotCW b.grid },
            { b with grid := rotCW b.grid }, b) := by
  obtain ⟨r, rest, hb⟩ : ∃ r rest, b.grid = r :: rest := by
    cases h : b.grid with
    | nil => exact absurd h hne
    | cons r rest => exact ⟨r, rest, rfl⟩
  rw [rotateBlock]
  simp [hb]

/-- The counter-clockwise branch of `rotateBlock` on a block with a
non-empty grid. -/
theorem rotateBlock_ccw_eq (board : Grid) (b : Block) (hne : b.grid ≠ []) :
    rotateBlock board b false =
      some (detectCollision board
              { b with grid := rotCCWOfReversed (b.grid.map List.reverse) },
            { b with grid := rotCCWOfReversed (b.grid.map List.reverse) },
            { b with grid := b.grid.map List.reverse }) := by
  obtain ⟨r, rest, hb⟩ : ∃ r rest, b.grid = r :: rest := by
    cases h : b.grid with
    | nil => exact absurd h hne
    | cons r rest => exact ⟨r, rest, rfl⟩
  rw [rotateBlock]
  simp [hb]

/-- Claim C5: four clockwise `rotateBlock` applications (each committing
the candidate) return the occupancy grid to the original, and one
clockwise application followed by one counter-clockwise application also
returns the original grid. -/
theorem rotateBlock_round_trips (board : Grid) (b : Block)
    (hsq : isSquare b.grid) (hne : b.grid ≠ []) :
    (∃ p1 p2 p3 p4,
      rotateBlock board b true = some p1 ∧
      rotateBlock board p1.2.1 true = some p2 ∧
      rotateBlock board p2.2.1 true = some p3 ∧
      rotateBlock board p3.2.1 true = some p4 ∧
      p4.2.1.grid = b.grid) ∧
    (∃ q1 q2,
      rotateBlock board b true = some q1 ∧
      rotateBlock board q1.2.1 false = some q2 ∧
      q2.2.1.grid = b.grid) := by
  have hpos : 0 < b.grid.length := List.length_pos.mpr hne
  have s1 := rotCW_square b.grid hsq
  have l1 := rotCW_length b.grid hsq
  have s2 := rotCW_square _ s1
  have l2 := rotCW_length _ s1
  have s3 := rotCW_square _ s2
  have l3 := rotCW_length _ s2
  have ne1 : rotCW b.grid ≠ [] := by
    apply List.ne_nil_of_length_pos
    rw [l1]
    exact hpos
  have ne2 : rotCW (rotCW b.grid) ≠ [] := by
    apply List.ne_nil_of_length_pos
    rw [l2, l1]
    exact hpos
  have ne3 : rotCW (rotCW (rotCW b.grid)) ≠ [] := by
    apply List.ne_nil_of_length_pos
    rw [l3, l2, l1]
    exact hpos
  have h1 := rotateBlock_cw_eq board b hne
  have h2 := rotateBlock_cw_eq board { b with grid := rotCW b.grid } ne1
  have h3 := rotateBlock_cw_eq board
    { b with grid := rotCW (rotCW b.grid) } ne2
  have h4 := rotateBlock_cw_eq board
    { b with grid := rotCW (rotCW (rotCW b.grid)) } ne3
  have hccw := rotateBlock_ccw_eq board { b with grid := rotCW b.grid } ne1
  constructor
  · exact ⟨_, _, _, _, h1, h2, h3, h4, rotCW_four b.grid hsq⟩
  · exact ⟨_, _, h1, hccw, rotCW_then_ccw b.grid hsq⟩

/-- Witness for C5 at the I-piece on the empty board. -/
theorem rotateBlock_round_trips_witness :
    (isSquare iBlock.grid ∧ iBlock.grid ≠ []) ∧
    ((∃ p1 p2 p3 p4,
      rotateBlock defaultState iBlock true = some p1 ∧
      rotateBlock defaultState p1.2.1 true = some p2 ∧
      rotateBlock defaultState p2.2.1 true = some p3 ∧
      rotateBlock defaultState p3.2.1 true = some p4 ∧
      p4.2.1.grid = iBlock.grid) ∧
    (∃ q1 q2,
      rotateBlock defaultState iBlock true = some q1 ∧
      rotateBlock defaultState q1.2.1 false = some q2 ∧
      q2.2.1.grid = iBlock.grid)) :=
  ⟨⟨by decide, by decide⟩,
   rotateBlock_round_trips defaultState iBlock (by decide) (by decide)⟩

/-- A piece with an occupied cell whose absolute row is outside
`[0, ROWS)` collides, whatever the board. -/
theorem detect_true_of_bad_row (board : Grid) (b : Block) (y0 x0 : Nat)
    (hy : y0 < b.grid.length) (hx : x0 < b.grid.length)
    (hocc : jsCell b.grid y0 x0 ≠ some Cell.empty)
    (hbad : (y0 : Int) + b.y < 0 ∨ (ROWS : Int) ≤ (y0 : Int) + b.y) :
    detectCollision board b = true := by
  rw [detectCollision]
  simp only [List.any_eq_true, List.mem_range]
  refine ⟨y0, hy, x0, hx, ?_⟩
  rw [cellCollides, if_neg hocc, if_pos]
  rcases hbad with h | h
  · exact Or.inr (Or.inl h)
  · exact Or.inr (Or.inr (Or.inr h))

/-- If a piece does not collide, every occupied cell (within the loop
range) sits on an absolute row inside `[0, ROWS)`. -/
theorem rows_ok_of_no_collision (board : Grid) (b : Block) (y0 x0 : Nat)
    (hy : y0 < b.grid.length) (hx : x0 < b.grid.length)
    (hocc : jsCell b.grid y0 x0 ≠ some Cell.empty)
    (hno : detectCollision board b = false) :
    0 ≤ (y0 : Int) + b.y ∧ (y0 : Int) + b.y < (ROWS : Int) := by
  rw [detectCollision] at hno
  simp only [List.any_eq_false, List.mem_range] at hno
  have h1 := hno y0 hy
  rw [Bool.not_eq_true, List.any_eq_false] at h1
  have hcc : cellCollides board b y0 x0 = false := by
    have := h1 x0 (List.mem_range.mpr hx)
    simpa using this
  rw [cellCollides, if_neg hocc] at hcc
  by_cases hbad : ((x0 : Int) + b.x < 0 ∨ (y0 : Int) + b.y < 0 ∨
      (COLS : Int) ≤ (x0 : Int) + b.x ∨ (ROWS : Int) ≤ (y0 : Int) + b.y)
  · rw [if_pos hbad] at hcc
    cases hcc
  · simp only [not_or, not_lt, not_le] at hbad
    exact ⟨by omega, by omega⟩

/-- Fuel bound for the drop search: from a state whose tracked occupied
cell sits on absolute row `a`, the loop finishes within `fuel`
iterations as soon as `ROWS - a ≤ fuel` (or at once when `a ≤ -2`, since
the first candidate is then still above the board). -/
theorem findDrop_succeeds (g : Grid) (y0 x0 : Nat) :
    ∀ (fuel : Nat) (b : Block), y0 < b.grid.length → x0 < b.grid.length →
      jsCell b.grid y0 x0 ≠ some Cell.empty →
      1 ≤ fuel →
      ((ROWS : Int) - (b.y + (y0 : Int)) ≤ (fuel : Int) ∨
        b.y + (y0 : Int) ≤ -2) →
      ∃ r, findDropCollision g fuel b = some r := by
  intro fuel
  induction fuel with
  | zero =>
    intro b _ _ _ h1 _
    omega
  | succ m ih =>
    intro b hy hx hocc _ hcase
    by_cases hc : detectCollision g { b with y := b.y + 1 } = true
    · refine ⟨b, ?_⟩
      rw [findDropCollision]
      simp [moveBlock, hc]
    · have hcf : detectCollision g { b with y := b.y + 1 } = false :=
        Bool.not_eq_true _ ▸ eq_false_of_ne_true hc
      have hok : 0 ≤ (y0 : Int) + (b.y + 1) ∧
          (y0 : Int) + (b.y + 1) < (ROWS : Int) :=
        rows_ok_of_no_collision g { b with y := b.y + 1 } y0 x0
          hy hx hocc hcf
      have hR : (ROWS : Int) = 16 := rfl
      rw [hR] at hok hcase
      rcases hcase with hfuel | hneg
      · obtain ⟨r, hr⟩ := ih { b with y := b.y + 1 } hy hx hocc
          (by omega)
          (by rw [hR]; left; push_cast at hfuel ⊢; omega)
        refine ⟨r, ?_⟩
        rw [findDropCollision]
        simpa [moveBlock, hcf] using hr
      · exfalso
        omega

/-- Claim C4 (amended): for every board and every piece with at least
one occupied cell in its occupancy grid, the drop search terminates, and
`ROWS + 1` loop iterations always suffice (the bound `ROWS` of the
original claim fails: a one-cell piece hovering one row above the board
needs `ROWS + 1` iterations, and a piece with an all-empty grid loops
forever). -/
theorem findDropCollision_terminates (g : Grid) (b : Block)
    (hocc : ∃ y x, y < b.grid.length ∧ x < b.grid.length ∧
      jsCell b.grid y x ≠ some Cell.empty) :
    ∃ r, findDropCollision g (ROWS + 1) b = some r := by
  obtain ⟨y0, x0, hy, hx, ho⟩ := hocc
  apply findDrop_succeeds g y0 x0 (ROWS + 1) b hy hx ho (by norm_num)
  have hR : (ROWS : Int) = 16 := rfl
  by_cases hc : b.y + (y0 : Int) ≤ -2
  · exact Or.inr hc
  · left
    rw [hR]
    push_cast
    omega

/-- Witness for C4 at the I-piece on the empty board: its cell `(0, 1)`
is occupied, and the search finishes (at `y = 12`). -/
theorem findDropCollision_terminates_witness :
    (∃ y x, y < iBlock.grid.length ∧ x < iBlock.grid.length ∧
      jsCell iBlock.grid y x ≠ some Cell.empty) ∧
    (∃ r, findDropCollision defaultState (ROWS + 1) iBlock = some r) :=
  ⟨⟨0, 1, by decide, by decide, by decide⟩,
   findDropCollision_terminates defaultState iBlock
     ⟨0, 1, by decide, by decide, by decide⟩⟩

/-- The row-scan loop never touches the running and game-over flags. -/
theorem applyClears_flags (t : ℚ) (s : SessionState) :
    (applyClears t s).gameOver = s.gameOver ∧
    (applyClears t s).running = s.running := by
  unfold applyClears
  generalize clearFullRows t s.block s.grid = p
  exact ⟨rfl, rfl⟩

/-- The flags survive the row-scan loop unchanged, stated on the
conjunction used by the invariant. -/
theorem applyClears_flags_and (t : ℚ) (x : SessionState) :
    ((applyClears t x).gameOver && (applyClears t x).running) =
      (x.gameOver && x.running) := by
  have h := applyClears_flags t x
  rw [h.1, h.2]

/-- One session transition preserves the flags invariant: the game-over
and running flags are never both set. -/
theorem sessionStep_flags {s s2 : SessionState} (e : Event)
    (h : sessionStep s e = some s2)
    (hinv : (s.gameOver && s.running) = false) :
    (s2.gameOver && s2.running) = false := by
  cases e with
  | tick t shape =>
    rw [sessionStep, tickStep] at h
    by_cases hr : s.running = false
    · rw [if_pos hr] at h
      injection h with h2
      subst h2
      exact hinv
    · rw [if_neg hr] at h
      have hrun : s.running = true := by
        cases hsr : s.running
        · exact absurd hsr hr
        · rfl
      have hgo : s.gameOver = false := by
        rw [hrun, Bool.and_true] at hinv
        exact hinv
      dsimp only [] at h
      split at h
      · split at h
        · split at h
          · cases h
          · split at h
            · injection h with h2
              subst h2
              rw [applyClears_flags_and]
              rfl
            · injection h with h2
              subst h2
              rw [applyClears_flags_and]
              exact hinv
        · injection h with h2
          subst h2
          rw [applyClears_flags_and]
          exact hinv
      · injection h with h2
        subst h2
        rw [applyClears_flags_and]
        exact hinv
  | moveLeft =>
    rw [sessionStep] at h
    dsimp only [] at h
    split at h
    · injection h with h2
      subst h2
      split
      · exact hinv
      · exact hinv
    · injection h with h2
      subst h2
      exact hinv
  | moveRight =>
    rw [sessionStep] at h
    dsimp only [] at h
    split at h
    · injection h with h2
      subst h2
      split
      · exact hinv
      · exact hinv
    · injection h with h2
      subst h2
      exact hinv
  | moveDown t =>
    rw [sessionStep] at h
    dsimp only [] at h
    split at h
    · injection h with h2
      subst h2
      split
      · exact hinv
      · exact hinv
    · injection h with h2
      subst h2
      exact hinv
  | hardDrop =>
    rw [sessionStep] at h
    split at h
    · split at h
      · cases h
      · injection h with h2
        subst h2
        exact hinv
    · injection h with h2
      subst h2
      exact hinv
  | restart t shape =>
    rw [sessionStep] at h
    split at h
    · injection h with h2
      subst h2
      exact hinv
    · injection h with h2
      subst h2
      rfl
  | rotate clockwise =>
    rw [sessionStep] at h
    split at h
    · split at h
      · cases h
      · injection h with h2
        subst h2
        split
        · exact hinv
        · exact hinv
    · injection h with h2
      subst h2
      exact hinv
  | pauseToggle =>
    rw [sessionStep] at h
    by_cases hg : s.gameOver = true
    · rw [if_pos hg] at h
      injection h with h2
      subst h2
      exact hinv
    · rw [if_neg hg] at h
      injection h with h2
      subst h2
      have hgf : s.gameOver = false := by
        cases hgg : s.gameOver
        · rfl
        · exact absurd hgg hg
      show (s.gameOver && !s.running) = false
      rw [hgf]
      rfl

/-- Claim C8: in every session state reachable from a fresh component by
any sequence of ticks and commands, the game-over flag and the running
flag are never both set (game over implies not running). -/
theorem session_gameOver_not_running (s : SessionState) (h : Reachable s) :
    (s.gameOver && s.running) = false := by
  induction h with
  | init shape => rfl
  | step e _ hstep ih => exact sessionStep_flags e hstep ih

/-- Witness for C8 at the initial session (spawning an I-piece). -/
theorem session_gameOver_not_running_witness :
    ((initialSession Shape.I).gameOver && (initialSession Shape.I).running) =
      false :=
  session_gameOver_not_running (initialSession Shape.I) (Reachable.init Shape.I)
